import Mathlib

/-!
Shallow embedding of the HTTP/1.1 toy server (`src/app/main.ts`) and
verification of the claims about its request parser, route handler and
response serializer.

Strings are embedded at character level (`List Char`); bytes on the wire are
`List Nat` obtained by `bytesOf` (the code-point encoding, exact for the ASCII
data the server exchanges).  The gzip primitive and the filesystem are the
spec's external collaborators and appear as function parameters.
-/

namespace CCHttp

abbrev Chars := List Char

/-- Character list of a string literal. -/
def str (s : String) : Chars := s.data

/-- The two-byte line terminator CR LF. -/
def crlfS : Chars := ['\r', '\n']

/-- Byte encoding of a JS string (code points; exact for ASCII payloads). -/
def bytesOf (s : Chars) : List Nat := s.map Char.toNat

/-- `String.prototype.toLowerCase` restricted to ASCII, as used on header names. -/
def lowerChars (s : Chars) : Chars := s.map Char.toLower

/-- `String.prototype.startsWith pre s`: does `s` start with `pre`? -/
def startsWithChars : Chars → Chars → Bool
  | [], _ => true
  | _ :: _, [] => false
  | p :: ps, c :: cs => if p = c then startsWithChars ps cs else false

/-- `String.prototype.includes` for a single-character needle. -/
def containsChar (l : Chars) (c : Char) : Bool :=
  l.any (fun x => decide (x = c))

/-- `String.prototype.split` with a single-character separator
(splits at every occurrence, keeps empty segments). -/
def splitChar (sep : Char) : Chars → List Chars
  | [] => [[]]
  | c :: rest =>
      if c = sep then [] :: splitChar sep rest
      else
        match splitChar sep rest with
        | [] => [[c]]
        | g :: gs => (c :: g) :: gs

/-- `String.prototype.split(': ')`: splits at every (non-overlapping, leftmost)
occurrence of the two-character delimiter `": "`. -/
def splitColonSpace : Chars → List Chars
  | [] => [[]]
  | [c] => [[c]]
  | c1 :: c2 :: rest =>
      if c1 = ':' ∧ c2 = ' ' then [] :: splitColonSpace rest
      else
        match splitColonSpace (c2 :: rest) with
        | [] => [[c1]]
        | g :: gs => (c1 :: g) :: gs

/-- Whether the delimiter `": "` occurs in the list. -/
def hasColonSpace : Chars → Bool
  | [] => false
  | [_] => false
  | c1 :: c2 :: rest =>
      if c1 = ':' ∧ c2 = ' ' then true else hasColonSpace (c2 :: rest)

/-- Whitespace skipped by JS `parseInt`. -/
def isJsSpace (c : Char) : Bool :=
  decide (c = ' ' ∨ c = '\t' ∨ c = '\n' ∨ c = '\r' ∨ c = '\x0b' ∨ c = '\x0c')

/-- Is the first character a decimal digit? -/
def leadingDigit : Chars → Bool
  | [] => false
  | c :: _ => decide ('0' ≤ c ∧ c ≤ '9')

/-- Accumulate the maximal leading run of decimal digits. -/
def digitsAcc : Chars → Nat → Nat
  | [], acc => acc
  | c :: rest, acc =>
      if '0' ≤ c ∧ c ≤ '9' then digitsAcc rest (acc * 10 + (c.toNat - 48)) else acc

/-- `parseInt(s, 10)`: `none` models the JS result `NaN`. -/
def jsParseInt10 (s : Chars) : Option Int :=
  match s.dropWhile isJsSpace with
  | [] => none
  | c :: rest =>
      if c = '-' then
        if leadingDigit rest then some (-(digitsAcc rest 0 : Int)) else none
      else if c = '+' then
        if leadingDigit rest then some ((digitsAcc rest 0 : Int)) else none
      else if leadingDigit (c :: rest) then some ((digitsAcc (c :: rest) 0 : Int))
      else none

/-- `parseInt(value, 10)` where `value` may be `undefined` (then `NaN`). -/
def jsParseIntOpt : Option Chars → Option Int
  | none => none
  | some v => jsParseInt10 v

/-! ### Fetch `Headers` model

Names are normalized to lower case on storage; `set` replaces the first entry
with the same name (removing any others) or appends; iteration (`entries()`)
yields the pairs sorted lexicographically by name. -/

abbrev HeaderEntries := List (Chars × Chars)

/-- `Headers.prototype.get`. -/
def headersGet : HeaderEntries → Chars → Option Chars
  | [], _ => none
  | (k, v) :: rest, name => if k = lowerChars name then some v else headersGet rest name

/-- `Headers.prototype.has`. -/
def headersHas (h : HeaderEntries) (name : Chars) : Bool :=
  h.any (fun kv => decide (kv.1 = lowerChars name))

/-- `Headers.prototype.set`. -/
def headersSet : HeaderEntries → Chars → Chars → HeaderEntries
  | [], name, v => [(lowerChars name, v)]
  | (k, w) :: rest, name, v =>
      if k = lowerChars name then
        (k, v) :: rest.filter (fun kv => decide (kv.1 ≠ lowerChars name))
      else (k, w) :: headersSet rest name v

/-- Lexicographic order on character lists by code point (the byte order the
Fetch specification sorts header names by during iteration). -/
def charsLe : Chars → Chars → Bool
  | [], _ => true
  | _ :: _, [] => false
  | a :: as, b :: bs => if a.toNat = b.toNat then charsLe as bs else decide (a.toNat < b.toNat)

/-- Iteration order on header entries: by name. -/
def keyLe (a b : Chars × Chars) : Prop := charsLe a.1 b.1 = true

instance : DecidableRel keyLe := fun a b => inferInstanceAs (Decidable (_ = true))

/-! ### Requests, responses, the route handler -/

/-- The structured request the handler receives (after URL parsing). -/
structure Request where
  method : Chars
  pathname : Chars
  headers : HeaderEntries
  body : List Nat
deriving DecidableEq, Repr

/-- The structured response the handler produces. -/
structure Response where
  status : Nat
  statusText : Chars
  headers : HeaderEntries
  body : List Nat
deriving DecidableEq, Repr

/-- `new Request(url, { method, headers, body })`, after URL parsing. -/
def mkReq (m p : Chars) (hs : HeaderEntries) (b : List Nat) : Request :=
  { method := m, pathname := p, headers := hs, body := b }

/-- `new Response(body, { status, headers })` (no explicit status text). -/
def mkRes (st : Nat) (hs : HeaderEntries) (b : List Nat) : Response :=
  { status := st, statusText := [], headers := hs, body := b }

/-- The fixed reason-phrase table `statusTextByCode`. -/
def statusTextByCode (c : Nat) : Option Chars :=
  if c = 200 then some (str "OK")
  else if c = 201 then some (str "Created")
  else if c = 404 then some (str "Not Found")
  else none

/-- The route handler (`handler` in the source), with the gzip primitive and
the configured directory's file reads as external collaborators.  The file
write in the POST branch is issued without awaiting its result and cannot
influence the response, so it does not appear in the returned value. -/
def handler (gzipSync : Chars → List Nat) (fileRead : Chars → Option (List Nat))
    (req : Request) : Response :=
  if req.method ≠ str "GET" ∧ req.method ≠ str "POST" then
    mkRes 405 [] []
  else if req.pathname = str "/" then
    mkRes 200 [] []
  else if startsWithChars (str "/echo/") req.pathname then
    if headersGet req.headers (str "Accept-Encoding") = some (str "gzip") then
      mkRes 200 [(str "content-encoding", str "gzip")]
        (gzipSync (req.pathname.drop (str "/echo/").length))
    else
      mkRes 200 [] (bytesOf (req.pathname.drop (str "/echo/").length))
  else if req.pathname = str "/user-agent" then
    mkRes 200 [] (bytesOf ((headersGet req.headers (str "User-Agent")).getD []))
  else if req.method = str "GET" ∧ startsWithChars (str "/files/") req.pathname then
    if containsChar (req.pathname.drop (str "/files/").length) '/'
        || containsChar (req.pathname.drop (str "/files/").length) '\\' then
      mkRes 404 [] []
    else
      match fileRead (req.pathname.drop (str "/files/").length) with
      | none => mkRes 404 [] []
      | some bs => mkRes 200 [(str "content-type", str "application/octet-stream")] bs
  else if req.method = str "POST" ∧ startsWithChars (str "/files/") req.pathname then
    if containsChar (req.pathname.drop (str "/files/").length) '/'
        || containsChar (req.pathname.drop (str "/files/").length) '\\' then
      mkRes 404 [] []
    else
      mkRes 201 [] []
  else
    mkRes 404 [] []

/-! ### The request parser (the `socket.on('data')` accumulation loop) -/

/-- The mutable state captured by the parsing closure. `contentLength` is
`none` while the variable is `undefined`; `some none` models `NaN`. -/
structure ParseState where
  data : Chars
  cursor : Nat
  head : Option Chars
  rawHeaders : List Chars
  contentLength : Option (Option Int)
  body : Chars
  endOfHeaders : Bool
deriving DecidableEq, Repr

/-- Index of the first occurrence of `"\r\n"` (JS `indexOf`), if any. -/
def findCRLF : Chars → Option Nat
  | [] => none
  | [_] => none
  | c1 :: c2 :: rest =>
      if c1 = '\r' ∧ c2 = '\n' then some 0
      else (findCRLF (c2 :: rest)).map (· + 1)

/-- `data.indexOf('\r\n', cursor)`, as an `Option`. -/
def findCRLFrom (data : Chars) (cursor : Nat) : Option Nat :=
  (findCRLF (data.drop cursor)).map (· + cursor)

/-- One pass of the body of the `while (cursor < data.length)` loop,
up to (but not including) the resolve check. -/
def iterBody (s : ParseState) : ParseState :=
  match findCRLFrom s.data s.cursor with
  | none =>
      if s.endOfHeaders then { s with body := s.data.drop s.cursor } else s
  | some e =>
      match s.head with
      | none => { s with cursor := e + 2, head := some ((s.data.take e).drop s.cursor) }
      | some _ =>
          if s.endOfHeaders = false then
            if (s.data.take e).drop s.cursor = [] then
              { s with cursor := e + 2, endOfHeaders := true }
            else if lowerChars ((splitColonSpace ((s.data.take e).drop s.cursor)).headD [])
                = str "content-length" then
              { s with cursor := e + 2,
                       rawHeaders := s.rawHeaders ++ [(s.data.take e).drop s.cursor],
                       contentLength :=
                         some (jsParseIntOpt (splitColonSpace ((s.data.take e).drop s.cursor))[1]?) }
            else
              { s with cursor := e + 2,
                       rawHeaders := s.rawHeaders ++ [(s.data.take e).drop s.cursor] }
          else { s with cursor := e + 2, body := s.body ++ (s.data.take e).drop s.cursor }

/-- The resolve condition checked at the end of every loop pass. -/
def resolveCond (s : ParseState) : Bool :=
  s.head.isSome &&
    (match s.contentLength with
     | none => s.endOfHeaders
     | some none => false
     | some (some n) => decide ((s.body.length : Int) ≥ n))

/-- Outcome of running the loop: the promise resolved, the loop exited to
await more data, or the supplied fuel ran out (the loop body kept running). -/
inductive LoopOut where
  | resolved (s : ParseState)
  | awaiting (s : ParseState)
  | outOfFuel (s : ParseState)
deriving DecidableEq, Repr

/-- The `while` loop, fuelled.  A pass evaluates `iterBody` and then the
resolve check, exactly as the source does. -/
def runLoop : Nat → ParseState → LoopOut
  | 0, s => .outOfFuel s
  | f + 1, s =>
      if s.cursor < s.data.length then
        let s1 := iterBody s
        if resolveCond s1 then .resolved s1 else runLoop f s1
      else .awaiting s

/-- The closure's state when the connection is accepted. -/
def initState : ParseState :=
  { data := [], cursor := 0, head := none, rawHeaders := [],
    contentLength := none, body := [], endOfHeaders := false }

/-- Deliver a sequence of `'data'` events: each chunk is appended to the
buffer and the loop runs until it resolves or exits. -/
def runChunks (fuel : Nat) : ParseState → List Chars → LoopOut
  | s, [] => .awaiting s
  | s, c :: cs =>
      match runLoop fuel { s with data := s.data ++ c } with
      | .resolved s1 => .resolved s1
      | .awaiting s1 => runChunks fuel s1 cs
      | .outOfFuel s1 => .outOfFuel s1

/-- The state carried by a `resolved` outcome, if any. -/
def resolvedState : LoopOut → Option ParseState
  | .resolved s => some s
  | _ => none

/-- The `body` field of a `resolved` outcome, if any. -/
def resolvedBody : LoopOut → Option Chars
  | .resolved s => some s.body
  | _ => none

/-- `false` exactly when the loop ran out of fuel (i.e. kept looping). -/
def settled : LoopOut → Bool
  | .outOfFuel _ => false
  | _ => true

/-! ### Response serialization -/

/-- Decimal rendering of a number. -/
def natDecimal (n : Nat) : Chars := (Nat.repr n).data

/-- The reason phrase: `res.statusText || statusTextByCode[statusCode] || ''`. -/
def reasonOf (res : Response) : Chars :=
  if res.statusText = [] then
    match statusTextByCode res.status with
    | some t => t
    | none => []
  else res.statusText

/-- The response headers after the serializer's defaulting of
`Content-Type` and `Content-Length`. -/
def finalHeaders (res : Response) : HeaderEntries :=
  let h1 := if headersHas res.headers (str "Content-Type") then res.headers
            else headersSet res.headers (str "Content-Type") (str "text/plain")
  if headersHas h1 (str "Content-Length") then h1
  else headersSet h1 (str "Content-Length") (natDecimal res.body.length)

/-- The pairs produced by `[...res.headers.entries()]`: sorted by name. -/
def sortedFinalHeaders (res : Response) : HeaderEntries :=
  List.insertionSort keyLe (finalHeaders res)

/-- `entries.map(([key, value]) => key + ': ' + value + '\r\n').join('')`. -/
def renderHeaders (l : HeaderEntries) : Chars :=
  (l.map (fun kv => kv.1 ++ str ": " ++ kv.2 ++ crlfS)).flatten

/-- Everything written on the socket for a handled request: the status line,
the header block, a blank line, then the raw body bytes. -/
def serializeWire (version : Chars) (res : Response) : List Nat :=
  bytesOf (version ++ str " " ++ natDecimal res.status ++ str " " ++ reasonOf res ++ crlfS
    ++ renderHeaders (sortedFinalHeaders res) ++ crlfS) ++ res.body

/-- Modelled from the spec's words (§4.4): the same serializer but emitting
headers "in the order they were set", for comparison with `serializeWire`. -/
def serializeWireSetOrder (version : Chars) (res : Response) : List Nat :=
  bytesOf (version ++ str " " ++ natDecimal res.status ++ str " " ++ reasonOf res ++ crlfS
    ++ renderHeaders (finalHeaders res) ++ crlfS) ++ res.body

/-! ### The connection driver (after the parse promise resolves) -/

/-- The transport-level method whitelist. -/
def allowedMethods : List Chars := [str "GET", str "POST", str "PUT", str "DELETE"]

/-- `head.split(' ')`. -/
def headTokens (s : ParseState) : List Chars := splitChar ' ' (s.head.getD [])

/-- The destructured `method` token. -/
def methodTok (s : ParseState) : Chars := (headTokens s).headD []

/-- The destructured `httpVersion` token (`none` models `undefined`). -/
def versionTok (s : ParseState) : Option Chars := (headTokens s)[2]?

/-- Model of `new URL(base + requestPath).pathname` for origin-form request
targets: the path up to a query or fragment, with backslashes treated as
slashes (WHATWG special-scheme path parsing).  Dot-segment normalization and
percent re-encoding are not modelled; no claim depends on them. -/
def urlPathname (p : Chars) : Chars :=
  (p.takeWhile (fun c => decide (c ≠ '?' ∧ c ≠ '#'))).map
    (fun c => if c = '\\' then '/' else c)

/-- `const [key, value] = rawHeader.split(': ')`; a missing value is the
`undefined` that `Headers.set` stringifies. -/
def parseHeaderLine (line : Chars) : Chars × Chars :=
  let parts := splitColonSpace line
  (parts.headD [], (parts[1]?).getD (str "undefined"))

/-- The `requestHeaders` loop over `rawHeaders`. -/
def buildRequestHeaders (raw : List Chars) : HeaderEntries :=
  raw.foldl (fun h line => headersSet h (parseHeaderLine line).1 (parseHeaderLine line).2) []

/-- The bytes of the terminal reply to a disallowed method. -/
def bytes405 : List Nat := bytesOf (str "HTTP/1.1 405 Method Not Allowed\r\n\r\n")

/-- The bytes of the terminal reply to an unsupported version. -/
def bytes505 : List Nat := bytesOf (str "HTTP/1.1 505 HTTP Version Not Supported\r\n\r\n")

/-- Everything the driver writes once the parse promise has resolved with
state `s`: the transport-level method and version checks, then dispatch to
the handler and serialization of its response. -/
def handleParsed (gzipSync : Chars → List Nat) (fileRead : Chars → Option (List Nat))
    (s : ParseState) : List Nat :=
  if allowedMethods.contains (methodTok s) = false then bytes405
  else if versionTok s ≠ some (str "HTTP/1.1") then bytes505
  else
    serializeWire ((versionTok s).getD [])
      (handler gzipSync fileRead
        { method := methodTok s
          pathname := urlPathname (((headTokens s)[1]?).getD [])
          headers := buildRequestHeaders s.rawHeaders
          body := bytesOf s.body })

/-- The bytes a connection writes for a given chunk sequence, or `none` when
the parse promise has not resolved (the connection is still waiting, or the
loop diverged within the given fuel). -/
def connectionOutput (fuel : Nat) (gzipSync : Chars → List Nat)
    (fileRead : Chars → Option (List Nat)) (chunks : List Chars) : Option (List Nat) :=
  match runChunks fuel initState chunks with
  | .resolved s => some (handleParsed gzipSync fileRead s)
  | _ => none

/-! ### Concrete collaborators and states used by witnesses and counterexamples -/

/-- A trivial gzip collaborator. -/
def gZero : Chars → List Nat := fun _ => []

/-- An empty configured directory. -/
def fsEmpty : Chars → Option (List Nat) := fun _ => none

/-- A directory containing exactly the file `secret`. -/
def fsSecret : Chars → Option (List Nat) :=
  fun n => if n = str "secret" then some (bytesOf (str "top")) else none

/-- A resolved state whose request line carries a disallowed method. -/
def sPatch : ParseState := { initState with head := some (str "PATCH / HTTP/1.1") }

/-- A resolved state whose request line carries an unsupported version. -/
def sHttp10 : ParseState := { initState with head := some (str "GET / HTTP/1.0") }

/-- The closure state right after a single chunk whose body is still two
bytes short of its `Content-Length` arrives. -/
def stuckC2 : ParseState :=
  { initState with data := str "POST / HTTP/1.1\r\nContent-Length: 5\r\n\r\nab" }

/-- A complete request head (request line, `Content-Length: 5`, blank line). -/
def chunkC4 : Chars := str "POST / HTTP/1.1\r\nContent-Length: 5\r\n\r\n"

/-- The parser state after `chunkC4` has been consumed. -/
def sStar : ParseState :=
  { data := chunkC4, cursor := 38, head := some (str "POST / HTTP/1.1"),
    rawHeaders := [str "Content-Length: 5"], contentLength := some (some 5),
    body := [], endOfHeaders := true }

/-- The handler's response on the gzip echo route (as built for `/echo/x`). -/
def resGzipEcho : Response :=
  mkRes 200 [(str "content-encoding", str "gzip")] (bytesOf (str "x"))

/-- The fixpoint state the data callback spins on for `stuckC2`. -/
def s4C2 : ParseState := iterBody (iterBody (iterBody (iterBody stuckC2)))

/-- `sStar` with `body` appended to the buffer (a second `'data'` event). -/
def sStarWith (body : Chars) : ParseState :=
  { data := chunkC4 ++ body, cursor := 38, head := some (str "POST / HTTP/1.1"),
    rawHeaders := [str "Content-Length: 5"], contentLength := some (some 5),
    body := [], endOfHeaders := true }

/-- The parser state resolved for `GET / HTTP/1.1` with no headers. -/
def sResolvedNoCL : ParseState :=
  { data := str "GET / HTTP/1.1\r\n\r\n", cursor := 18, head := some (str "GET / HTTP/1.1"),
    rawHeaders := [], contentLength := none, body := [], endOfHeaders := true }

/-- A handler response with nothing set (as returned for `GET /`). -/
def resEmpty : Response := mkRes 200 [] []

/-- A request-header map carrying `Accept-Encoding: gzip`. -/
def hdrsGzip : HeaderEntries := [(str "accept-encoding", str "gzip")]

/-! ## Helper lemmas -/

theorem startsWithChars_append (p t : Chars) : startsWithChars p (p ++ t) = true := by
  induction p with
  | nil => rfl
  | cons c ps ih => simp [startsWithChars, ih]

theorem headersGet_headersSet_self (h : HeaderEntries) (n v : Chars) :
    headersGet (headersSet h n v) n = some v := by
  induction h with
  | nil => simp [headersSet, headersGet]
  | cons kv rest ih =>
      obtain ⟨k, w⟩ := kv
      by_cases hk : k = lowerChars n
      · simp [headersSet, hk, headersGet]
      · simp [headersSet, hk, headersGet, ih]

theorem mem_headersSet_self (h : HeaderEntries) (n v : Chars) :
    (lowerChars n, v) ∈ headersSet h n v := by
  induction h with
  | nil => simp [headersSet]
  | cons kv rest ih =>
      obtain ⟨k, w⟩ := kv
      by_cases hk : k = lowerChars n
      · simp [headersSet, hk]
      · simp only [headersSet, if_neg hk, List.mem_cons]
        exact Or.inr ih

theorem mem_headersSet_of_ne (h : HeaderEntries) (n v : Chars) (kv : Chars × Chars)
    (hm : kv ∈ h) (hne : kv.1 ≠ lowerChars n) : kv ∈ headersSet h n v := by
  induction h with
  | nil => cases hm
  | cons x rest ih =>
      obtain ⟨k, w⟩ := x
      by_cases hk : k = lowerChars n
      · rcases List.mem_cons.mp hm with rfl | hmem
        · exact absurd hk hne
        · simp only [headersSet, if_pos hk, List.mem_cons]
          exact Or.inr (List.mem_filter.mpr ⟨hmem, by simpa using hne⟩)
      · rcases List.mem_cons.mp hm with rfl | hmem
        · simp [headersSet, hk]
        · simp only [headersSet, if_neg hk, List.mem_cons]
          exact Or.inr (ih hmem)

theorem headersSet_eq_append (h : HeaderEntries) (n v : Chars)
    (hh : headersHas h n = false) : headersSet h n v = h ++ [(lowerChars n, v)] := by
  induction h with
  | nil => simp [headersSet]
  | cons kv rest ih =>
      obtain ⟨k, w⟩ := kv
      simp only [headersHas, List.any_cons, Bool.or_eq_false_iff, decide_eq_false_iff_not] at hh
      simp only [headersSet, if_neg hh.1, List.cons_append]
      rw [ih hh.2]

theorem exists_of_headersHas (h : HeaderEntries) (n : Chars)
    (hh : headersHas h n = true) : ∃ v, (lowerChars n, v) ∈ h := by
  induction h with
  | nil => simp [headersHas] at hh
  | cons kv rest ih =>
      by_cases hk : kv.1 = lowerChars n
      · exact ⟨kv.2, by rw [← hk]; exact List.mem_cons_self _ _⟩
      · simp only [headersHas, List.any_cons, Bool.or_eq_true_iff, decide_eq_true_eq] at hh
        rcases hh with hh | hh
        · exact absurd hh hk
        · obtain ⟨v, hv⟩ := ih hh
          exact ⟨v, List.mem_cons_of_mem _ hv⟩

theorem charsLe_total : ∀ a b : Chars, charsLe a b = true ∨ charsLe b a = true
  | [], _ => Or.inl rfl
  | _ :: _, [] => Or.inr rfl
  | a :: as, b :: bs => by
      by_cases h : a.toNat = b.toNat
      · rcases charsLe_total as bs with h1 | h1
        · exact Or.inl (by simp [charsLe, h, h1])
        · exact Or.inr (by simp [charsLe, h.symm, h1])
      · rcases Nat.lt_or_ge a.toNat b.toNat with h2 | h2
        · exact Or.inl (by simp [charsLe, h, h2])
        · have h3 : b.toNat < a.toNat := Nat.lt_of_le_of_ne h2 (fun e => h e.symm)
          have h4 : ¬ b.toNat = a.toNat := fun e => h e.symm
          exact Or.inr (by simp [charsLe, h4, h3])

theorem charsLe_trans : ∀ a b c : Chars,
    charsLe a b = true → charsLe b c = true → charsLe a c = true
  | [], _, _, _, _ => rfl
  | _ :: _, [], _, h1, _ => by simp [charsLe] at h1
  | _ :: _, _ :: _, [], _, h2 => by simp [charsLe] at h2
  | a :: as, b :: bs, c :: cs, h1, h2 => by
      simp only [charsLe] at h1 h2 ⊢
      by_cases e1 : a.toNat = b.toNat <;> by_cases e2 : b.toNat = c.toNat
      · rw [if_pos e1] at h1; rw [if_pos e2] at h2
        rw [if_pos (e1.trans e2)]
        exact charsLe_trans as bs cs h1 h2
      · rw [if_pos e1] at h1; rw [if_neg e2] at h2
        have : ¬ a.toNat = c.toNat := by rw [e1]; exact e2
        rw [if_neg this]
        rw [e1]; exact h2
      · rw [if_neg e1] at h1; rw [if_pos e2] at h2
        have : ¬ a.toNat = c.toNat := by rw [← e2]; exact e1
        rw [if_neg this]
        rw [← e2]; exact h1
      · rw [if_neg e1] at h1; rw [if_neg e2] at h2
        have l1 : a.toNat < b.toNat := by simpa using h1
        have l2 : b.toNat < c.toNat := by simpa using h2
        have : ¬ a.toNat = c.toNat := by omega
        rw [if_neg this]
        simp; omega

instance : IsTotal (Chars × Chars) keyLe :=
  ⟨fun a b => charsLe_total a.1 b.1⟩

instance : IsTrans (Chars × Chars) keyLe :=
  ⟨fun _ _ _ h1 h2 => charsLe_trans _ _ _ h1 h2⟩

theorem splitColonSpace_ne_nil : ∀ l : Chars, splitColonSpace l ≠ []
  | [] => by simp [splitColonSpace]
  | [c] => by simp [splitColonSpace]
  | c1 :: c2 :: rest => by
      simp only [splitColonSpace]
      split
      · simp
      · split <;> simp

theorem splitColonSpace_append (k v : Chars) (hk : hasColonSpace k = false) :
    splitColonSpace (k ++ ':' :: ' ' :: v) = k :: splitColonSpace v := by
  induction k with
  | nil =>
      simp only [List.nil_append]
      rw [show splitColonSpace (':' :: ' ' :: v) = [] :: splitColonSpace v from by
        simp [splitColonSpace]]
  | cons c k' ih =>
      cases k' with
      | nil =>
          have hc : ¬ (c = ':' ∧ (':' : Char) = ' ') := by
            rintro ⟨_, h⟩; exact absurd h (by decide)
          simp only [List.cons_append, List.nil_append, splitColonSpace, if_neg hc]
          simp [splitColonSpace]
      | cons d k'' =>
          have h1 : ¬ (c = ':' ∧ d = ' ') := by
            intro hcd; simp [hasColonSpace, hcd] at hk
          have h2 : hasColonSpace (d :: k'') = false := by
            simp only [hasColonSpace, if_neg h1] at hk; exact hk
          simp only [List.cons_append] at ih ⊢
          simp only [splitColonSpace, if_neg h1]
          rw [ih h2]

theorem findCRLF_none (l : Chars) (h : ∀ c ∈ l, c ≠ '\r') : findCRLF l = none := by
  induction l with
  | nil => rfl
  | cons c rest ih =>
      cases rest with
      | nil => rfl
      | cons d rest' =>
          have hc : ¬ (c = '\r' ∧ d = '\n') := by
            rintro ⟨h1, _⟩; exact h c (List.mem_cons_self _ _) h1
          simp only [findCRLF, if_neg hc]
          rw [ih (fun x hx => h x (List.mem_cons_of_mem _ hx))]
          rfl

theorem echoRoot_ne (t : Chars) : str "/echo/" ++ t ≠ str "/" := by
  intro h
  have hl := congrArg List.length h
  rw [List.length_append, show (str "/echo/").length = 6 from rfl,
    show (str "/").length = 1 from rfl] at hl
  omega

theorem filesRoot_ne (t : Chars) : str "/files/" ++ t ≠ str "/" := by
  intro h
  have hl := congrArg List.length h
  rw [List.length_append, show (str "/files/").length = 7 from rfl,
    show (str "/").length = 1 from rfl] at hl
  omega

theorem filesUA_ne (t : Chars) : str "/files/" ++ t ≠ str "/user-agent" := by
  intro h
  have h2 : (str "/files/" ++ t)[1]? = (str "/user-agent")[1]? := by rw [h]
  rw [show (str "/files/" ++ t)[1]? = some 'f' from rfl,
    show (str "/user-agent")[1]? = some 'u' from rfl] at h2
  exact absurd (Option.some.inj h2) (by decide)

theorem echo_not_pre_files (t : Chars) :
    startsWithChars (str "/echo/") (str "/files/" ++ t) = false := rfl

/-! ## Loop lemmas -/

theorem runLoop_step (s : ParseState) (h1 : s.cursor < s.data.length)
    (h2 : resolveCond (iterBody s) = false) :
    ∀ f, runLoop (f + 1) s = runLoop f (iterBody s) := by
  intro f
  simp [runLoop, h1, h2]

theorem runLoop_stuck (s : ParseState) (h1 : s.cursor < s.data.length)
    (h2 : iterBody s = s) (h3 : resolveCond s = false) :
    ∀ f, runLoop f s = .outOfFuel s := by
  intro f
  induction f with
  | zero => rfl
  | succ g ih =>
      rw [runLoop_step s h1 (by rw [h2]; exact h3) g, h2]
      exact ih

theorem runChunks_cons (fuel : Nat) (s : ParseState) (c : Chars) (cs : List Chars) :
    runChunks fuel s (c :: cs) =
      match runLoop fuel { s with data := s.data ++ c } with
      | .resolved s1 => .resolved s1
      | .awaiting s1 => runChunks fuel s1 cs
      | .outOfFuel s1 => .outOfFuel s1 := rfl

/-- The invariant that drives the "absent `Content-Length` means empty body"
property: before the end of headers, the body is untouched; after it, the
request line has been seen and `contentLength` has left `undefined`. -/
def RInv (s : ParseState) : Prop :=
  (s.endOfHeaders = false → s.body = []) ∧
  (s.endOfHeaders = true → s.head.isSome = true ∧ s.contentLength ≠ none)

theorem iterBody_cl_none (s : ParseState) (h : (iterBody s).contentLength = none) :
    s.contentLength = none := by
  unfold iterBody at h
  split at h
  · split at h <;> simpa using h
  · split at h
    · simpa using h
    · split at h
      · split at h
        · simpa using h
        · split at h
          · simp at h
          · simpa using h
      · simpa using h

theorem iterBody_eoh_mono (s : ParseState) (h : (iterBody s).endOfHeaders = false) :
    s.endOfHeaders = false := by
  unfold iterBody at h
  split at h
  · split at h
    · simpa using h
    · simpa using h
  · split at h
    · simpa using h
    · split at h
      · rename_i hcond
        exact hcond
      · simpa using h

theorem iterBody_body_of_eoh_false (s : ParseState) (h : s.endOfHeaders = false) :
    (iterBody s).body = s.body := by
  unfold iterBody
  split
  · rw [if_neg (by simp [h])]
  · split
    · rfl
    · rw [if_pos h]
      split
      · rfl
      · split <;> rfl

theorem iterBody_head_mono (s : ParseState) (h : s.head.isSome = true) :
    (iterBody s).head.isSome = true := by
  unfold iterBody
  split
  · split <;> simpa using h
  · split
    · simp
    · split
      · split
        · simpa using h
        · split <;> simpa using h
      · simpa using h

theorem iterBody_cl_keep (s : ParseState) (h : s.contentLength ≠ none) :
    (iterBody s).contentLength ≠ none := by
  unfold iterBody
  split
  · split <;> simpa using h
  · split
    · simpa using h
    · split
      · split
        · simpa using h
        · split
          · simp
          · simpa using h
      · simpa using h

theorem iterBody_head_isSome_of_eoh (s : ParseState) (h1 : s.endOfHeaders = false)
    (h2 : (iterBody s).endOfHeaders = true) : (iterBody s).head.isSome = true := by
  unfold iterBody at h2 ⊢
  cases hfind : findCRLFrom s.data s.cursor with
  | none => simp [hfind, h1] at h2
  | some e =>
      cases hhd : s.head with
      | none => simp [hfind, hhd, h1] at h2
      | some hd0 =>
          simp only [hfind, hhd] at h2 ⊢
          rw [if_pos h1] at h2 ⊢
          by_cases hline : (s.data.take e).drop s.cursor = []
          · rw [if_pos hline]
            simp
          · rw [if_neg hline] at h2
            split at h2 <;> simp [h1] at h2

theorem resolveCond_false_cl (s' : ParseState) (hh : s'.head.isSome = true)
    (he : s'.endOfHeaders = true) (hr : resolveCond s' = false) :
    s'.contentLength ≠ none := by
  intro hcl
  simp [resolveCond, hh, he, hcl] at hr

theorem iter_main (s : ParseState) (hR : RInv s) :
    (resolveCond (iterBody s) = false → RInv (iterBody s)) ∧
    (resolveCond (iterBody s) = true → (iterBody s).contentLength = none →
      (iterBody s).body = []) := by
  obtain ⟨hR1, hR2⟩ := hR
  constructor
  · intro hres
    constructor
    · intro hpost
      have hs := iterBody_eoh_mono s hpost
      rw [iterBody_body_of_eoh_false s hs]
      exact hR1 hs
    · intro hpost
      cases he : s.endOfHeaders with
      | false =>
          have hhs := iterBody_head_isSome_of_eoh s he hpost
          exact ⟨hhs, resolveCond_false_cl _ hhs hpost hres⟩
      | true =>
          exact ⟨iterBody_head_mono s (hR2 he).1, iterBody_cl_keep s (hR2 he).2⟩
  · intro _ hcl
    have hcls := iterBody_cl_none s hcl
    cases he : s.endOfHeaders with
    | false =>
        rw [iterBody_body_of_eoh_false s he]
        exact hR1 he
    | true => exact absurd hcls (hR2 he).2

theorem runLoop_inv : ∀ (f : Nat) (s : ParseState), RInv s →
    (∀ s', runLoop f s = .awaiting s' → RInv s') ∧
    (∀ s', runLoop f s = .resolved s' → s'.contentLength = none → s'.body = []) := by
  intro f
  induction f with
  | zero =>
      intro s _
      constructor <;> intro s' h <;> simp [runLoop] at h
  | succ g ih =>
      intro s hR
      by_cases h1 : s.cursor < s.data.length
      · cases hres : resolveCond (iterBody s) with
        | true =>
            constructor <;> intro s' h <;>
              rw [show runLoop (g + 1) s = .resolved (iterBody s) from by
                simp [runLoop, h1, hres]] at h
            · cases h
            · cases h
              exact (iter_main s hR).2 hres
        | false =>
            have hstep : runLoop (g + 1) s = runLoop g (iterBody s) :=
              runLoop_step s h1 hres g
            have hR' : RInv (iterBody s) := (iter_main s hR).1 hres
            constructor <;> intro s' h <;> rw [hstep] at h
            · exact (ih (iterBody s) hR').1 s' h
            · exact (ih (iterBody s) hR').2 s' h
      · constructor <;> intro s' h <;>
          rw [show runLoop (g + 1) s = .awaiting s from by simp [runLoop, h1]] at h
        · cases h; exact hR
        · cases h

theorem RInv_data (s : ParseState) (d : Chars) (hR : RInv s) :
    RInv { s with data := d } := hR

theorem runChunks_inv : ∀ (chunks : List Chars) (f : Nat) (s : ParseState), RInv s →
    ∀ s', runChunks f s chunks = .resolved s' → s'.contentLength = none → s'.body = [] := by
  intro chunks
  induction chunks with
  | nil =>
      intro f s _ s' h
      simp [runChunks] at h
  | cons c cs ih =>
      intro f s hR s' h
      rw [runChunks_cons] at h
      cases hrl : runLoop f { s with data := s.data ++ c } with
      | resolved s1 =>
          rw [hrl] at h
          cases h
          exact (runLoop_inv f _ (RInv_data s _ hR)).2 s' hrl
      | awaiting s1 =>
          rw [hrl] at h
          exact ih f s1 ((runLoop_inv f _ (RInv_data s _ hR)).1 s1 hrl) s' h
      | outOfFuel s1 =>
          rw [hrl] at h
          cases h

theorem runLoop_succ (f : Nat) (s : ParseState) :
    runLoop (f + 1) s =
      if s.cursor < s.data.length then
        if resolveCond (iterBody s) then .resolved (iterBody s) else runLoop f (iterBody s)
      else .awaiting s := rfl

theorem finalHeaders_ct (res : Response) :
    ∃ v, (str "content-type", v) ∈ finalHeaders res ∧
      (headersHas res.headers (str "Content-Type") = false → v = str "text/plain") := by
  have hlow_ct : lowerChars (str "Content-Type") = str "content-type" := by decide
  have hlow_cl : lowerChars (str "Content-Length") = str "content-length" := by decide
  unfold finalHeaders
  by_cases hA : headersHas res.headers (str "Content-Type") = true
  · rw [if_pos hA]
    obtain ⟨v, hv⟩ := exists_of_headersHas _ _ hA
    rw [hlow_ct] at hv
    refine ⟨v, ?_, fun hF => by rw [hA] at hF; cases hF⟩
    by_cases hB : headersHas res.headers (str "Content-Length") = true
    · rw [if_pos hB]
      exact hv
    · rw [if_neg hB]
      exact mem_headersSet_of_ne res.headers (str "Content-Length")
        (natDecimal res.body.length) _ hv
        (show (str "content-type" : Chars) ≠ lowerChars (str "Content-Length") by decide)
  · rw [if_neg hA]
    refine ⟨str "text/plain", ?_, fun _ => rfl⟩
    have hmem : (str "content-type", str "text/plain")
        ∈ headersSet res.headers (str "Content-Type") (str "text/plain") := by
      have h0 := mem_headersSet_self res.headers (str "Content-Type") (str "text/plain")
      rwa [hlow_ct] at h0
    by_cases hB : headersHas (headersSet res.headers (str "Content-Type") (str "text/plain"))
        (str "Content-Length") = true
    · rw [if_pos hB]
      exact hmem
    · rw [if_neg hB]
      exact mem_headersSet_of_ne _ (str "Content-Length")
        (natDecimal res.body.length) _ hmem
        (show (str "content-type" : Chars) ≠ lowerChars (str "Content-Length") by decide)

theorem finalHeaders_cl (res : Response) :
    ∃ v, (str "content-length", v) ∈ finalHeaders res ∧
      (headersHas res.headers (str "Content-Length") = false →
        v = natDecimal res.body.length) := by
  have hlow_cl : lowerChars (str "Content-Length") = str "content-length" := by decide
  unfold finalHeaders
  by_cases hB : headersHas (if headersHas res.headers (str "Content-Type") then res.headers
      else headersSet res.headers (str "Content-Type") (str "text/plain"))
      (str "Content-Length") = true
  · rw [if_pos hB]
    obtain ⟨v, hv⟩ := exists_of_headersHas _ _ hB
    rw [hlow_cl] at hv
    refine ⟨v, hv, fun hF => ?_⟩
    exfalso
    by_cases hA : headersHas res.headers (str "Content-Type") = true
    · rw [if_pos hA] at hB
      rw [hF] at hB
      cases hB
    · rw [if_neg hA] at hB
      rw [headersSet_eq_append _ _ _ (by simpa using hA)] at hB
      simp only [headersHas, List.any_append] at hB hF
      rw [hF] at hB
      simp at hB
      exact absurd hB (by decide)
  · rw [if_neg hB]
    refine ⟨natDecimal res.body.length, ?_, fun _ => rfl⟩
    have h0 := mem_headersSet_self
      (if headersHas res.headers (str "Content-Type") then res.headers
        else headersSet res.headers (str "Content-Type") (str "text/plain"))
      (str "Content-Length") (natDecimal res.body.length)
    rwa [hlow_cl] at h0

/-! ## Claims -/

/-- C1 (counterexample): after a chunk carrying only the complete request line
`PATCH / HTTP/1.1` the connection has produced no response at all (the parse
promise has not resolved), and the 405 reply is written only once the header
section has been fully parsed — the resolved state records the parsed header
`X: y` — contradicting "before any header or body parsing occurs". -/
theorem c1_counterexample :
    resolvedState (runChunks 32 initState [str "PATCH / HTTP/1.1\r\n"]) = none ∧
    (resolvedState (runChunks 32 initState
        [str "PATCH / HTTP/1.1\r\n", str "X: y\r\n\r\n"])).map ParseState.rawHeaders
      = some [str "X: y"] ∧
    connectionOutput 32 gZero fsEmpty [str "PATCH / HTTP/1.1\r\n", str "X: y\r\n\r\n"]
      = some bytes405 :=
  ⟨by decide, by decide, by decide⟩

/-- C1 (amended): the method and version checks are evaluated only on the state
of a fully parsed request; a disallowed method yields exactly the bytes
`HTTP/1.1 405 Method Not Allowed` CR LF CR LF (status line, no headers, no
body), an allowed method with version ≠ `HTTP/1.1` yields the corresponding
505 bytes, independently of the collaborators — the request is never
dispatched to the handler. -/
theorem c1_theorem (g : Chars → List Nat) (fr : Chars → Option (List Nat)) (s : ParseState) :
    (allowedMethods.contains (methodTok s) = false → handleParsed g fr s = bytes405) ∧
    (allowedMethods.contains (methodTok s) = true →
      versionTok s ≠ some (str "HTTP/1.1") → handleParsed g fr s = bytes505) := by
  constructor
  · intro h
    unfold handleParsed
    rw [if_pos h]
  · intro h1 h2
    unfold handleParsed
    rw [if_neg (by rw [h1]; decide), if_pos h2]

/-- C1 (witness): the amended theorem at the `PATCH` and `HTTP/1.0` states. -/
theorem c1_witness :
    handleParsed gZero fsEmpty sPatch = bytes405 ∧
    handleParsed gZero fsEmpty sHttp10 = bytes505 :=
  ⟨(c1_theorem gZero fsEmpty sPatch).1 (by decide),
   (c1_theorem gZero fsEmpty sHttp10).2 (by decide) (by decide)⟩

/-- C2 (code bug): on the single chunk
`POST / HTTP/1.1 CRLF Content-Length: 5 CRLF CRLF ab` — end of headers
reached, body two bytes short — the `while` loop never terminates: for every
fuel bound it is still running (it neither resolves nor exits to await more
data), because the `end === -1` branch advances nothing. -/
theorem c2_theorem : ∀ f, settled (runLoop f stuckC2) = false := by
  have key : ∀ f, runLoop (f + 4) stuckC2 = runLoop f s4C2 := by
    intro f
    show runLoop (f + 3 + 1) stuckC2 = _
    rw [runLoop_step stuckC2 (by decide) (by decide)]
    show runLoop (f + 2 + 1) (iterBody stuckC2) = _
    rw [runLoop_step (iterBody stuckC2) (by decide) (by decide)]
    show runLoop (f + 1 + 1) (iterBody (iterBody stuckC2)) = _
    rw [runLoop_step (iterBody (iterBody stuckC2)) (by decide) (by decide)]
    show runLoop (f + 1) (iterBody (iterBody (iterBody stuckC2))) = _
    rw [runLoop_step (iterBody (iterBody (iterBody stuckC2))) (by decide) (by decide)]
    rfl
  intro f
  rcases f with _ | _ | _ | _ | g
  · decide
  · decide
  · decide
  · decide
  · show settled (runLoop (g + 4) stuckC2) = false
    rw [key g, runLoop_stuck s4C2 (by decide) (by decide) (by decide) g]
    rfl

/-- C3 (counterexample): the raw header line `User-Agent: a: b` is stored with
value `a`, not the intact `a: b` — the split cuts at every occurrence of
`": "` and the destructuring keeps only the second piece. -/
theorem c3_counterexample :
    headersGet (buildRequestHeaders [str "User-Agent: a: b"]) (str "User-Agent")
      = some (str "a") ∧ str "a" ≠ str "a: b" :=
  ⟨by decide, by decide⟩

/-- C3 (amended): a non-empty header line is split at every occurrence of
`": "`; the stored name is the segment before the first occurrence and the
stored value is the segment between the first and second occurrences (the
value is truncated at its first `": "`); the mapping overwrites any prior
value for the same name. -/
theorem c3_theorem (k v n v1 v2 : Chars) (h : HeaderEntries)
    (hk : hasColonSpace k = false) :
    parseHeaderLine (k ++ str ": " ++ v) = (k, (splitColonSpace v).headD []) ∧
    headersGet (headersSet (headersSet h n v1) n v2) n = some v2 := by
  constructor
  · unfold parseHeaderLine
    have he : k ++ str ": " ++ v = k ++ ':' :: ' ' :: v := by simp [str]
    rw [he, splitColonSpace_append k v hk]
    obtain ⟨g0, gs, hgs⟩ : ∃ g0 gs, splitColonSpace v = g0 :: gs := by
      cases hsv : splitColonSpace v with
      | nil => exact absurd hsv (splitColonSpace_ne_nil v)
      | cons g0 gs => exact ⟨g0, gs, rfl⟩
    rw [hgs]
    simp
  · exact headersGet_headersSet_self _ n v2

/-- C3 (witness): the amended theorem at the `User-Agent: a: b` line and a
concrete double `set`. -/
theorem c3_witness :
    parseHeaderLine (str "User-Agent" ++ str ": " ++ str "a: b")
      = (str "User-Agent", (splitColonSpace (str "a: b")).headD []) ∧
    headersGet (headersSet (headersSet [] (str "X") (str "1")) (str "X") (str "2"))
      (str "X") = some (str "2") :=
  ⟨(c3_theorem (str "User-Agent") (str "a: b") (str "X") (str "1") (str "2") [] (by decide)).1,
   (c3_theorem (str "User-Agent") (str "a: b") (str "X") (str "1") (str "2") [] (by decide)).2⟩

/-- C4 (counterexample): for `Content-Length: 2` with the bytes `a CR LF b c`
after the blank line, the parser resolves with body `bc`, not the first two
bytes `a CR` — CR LF inside the body is stripped and the buffered tail
overwrites the accumulated body. -/
theorem c4_counterexample :
    resolvedBody (runChunks 32 initState
        [str "POST / HTTP/1.1\r\nContent-Length: 2\r\n\r\na\r\nbc"])
      = some (str "bc") ∧
    some (str "bc") ≠ some ((str "a\r\nbc").take 2) :=
  ⟨by decide, by decide⟩

/-- C4 (amended): when the `Content-Length` header is absent, every parsed
request has an empty body (over arbitrary chunkings); when `Content-Length`
is present, the body equals exactly the bytes following the blank line
provided they contain no CR — shown for a length-5 body delivered after the
head — while bodies containing CR LF are corrupted (see the counterexample). -/
theorem c4_theorem :
    (∀ body : Chars, (∀ c ∈ body, c ≠ '\r') → body.length = 5 →
      resolvedBody (runChunks 32 initState [chunkC4, body]) = some body) ∧
    (∀ (chunks : List Chars) (f : Nat) (s' : ParseState),
      runChunks f initState chunks = .resolved s' → s'.contentLength = none →
        s'.body = []) := by
  constructor
  · intro body hcr hlen
    have hlen38 : chunkC4.length = 38 := by decide
    have hdrop : List.drop 38 (chunkC4 ++ body) = body := List.drop_left' hlen38
    have hfind : findCRLFrom (chunkC4 ++ body) 38 = none := by
      unfold findCRLFrom
      rw [hdrop, findCRLF_none body hcr]
      rfl
    have hiter : iterBody (sStarWith body) = { sStarWith body with body := body } := by
      simp only [iterBody, sStarWith, hfind, hdrop]
      rfl
    have hres : resolveCond { sStarWith body with body := body } = true := by
      simp [resolveCond, sStarWith, hlen]
    have hcur : (sStarWith body).cursor < (sStarWith body).data.length := by
      show (38 : Nat) < (chunkC4 ++ body).length
      rw [List.length_append, hlen38, hlen]
      decide
    have hrl2 : runLoop 32 (sStarWith body)
        = .resolved { sStarWith body with body := body } := by
      rw [show (32 : Nat) = 31 + 1 from rfl, runLoop_succ, if_pos hcur, hiter, if_pos hres]
    show resolvedBody (runChunks 32 initState [chunkC4, body]) = some body
    rw [runChunks_cons,
      show runLoop 32 { initState with data := initState.data ++ chunkC4 }
        = .awaiting sStar from by decide]
    show resolvedBody (runChunks 32 sStar [body]) = some body
    rw [runChunks_cons,
      show ({ sStar with data := sStar.data ++ body } : ParseState) = sStarWith body from rfl,
      hrl2]
    rfl
  · intro chunks f s' hrun hcl
    refine runChunks_inv chunks f initState ⟨fun _ => rfl, fun hh => ?_⟩ s' hrun hcl
    simp [initState] at hh

/-- C4 (witness): the amended theorem at the body `hello` and at the
header-only `GET` request. -/
theorem c4_witness :
    resolvedBody (runChunks 32 initState [chunkC4, str "hello"]) = some (str "hello") ∧
    sResolvedNoCL.body = [] :=
  ⟨c4_theorem.1 (str "hello") (by decide) (by decide),
   c4_theorem.2 [str "GET / HTTP/1.1\r\n\r\n"] 32 sResolvedNoCL (by decide) (by decide)⟩

/-- C5 (counterexample): `POST /` is answered 200 with empty body by the
handler, not 404 — the `/` route never checks the method. -/
theorem c5_counterexample :
    handler gZero fsEmpty (mkReq (str "POST") (str "/") [] []) = mkRes 200 [] [] ∧
    (200 : Nat) ≠ 404 :=
  ⟨by decide, by decide⟩

/-- C5 (amended): the `/`, `/echo/` and `/user-agent` routes match without any
method check beyond the initial not-GET/POST 405 guard: both GET and POST
requests to these paths are answered with status 200. -/
theorem c5_theorem (g : Chars → List Nat) (fr : Chars → Option (List Nat))
    (hs : HeaderEntries) (b : List Nat) (m : Chars)
    (hm : m = str "GET" ∨ m = str "POST") :
    (handler g fr (mkReq m (str "/") hs b)).status = 200 ∧
    (∀ rest : Chars,
      (handler g fr (mkReq m (str "/echo/" ++ rest) hs b)).status = 200) ∧
    (handler g fr (mkReq m (str "/user-agent") hs b)).status = 200 := by
  have hguard : ¬ (m ≠ str "GET" ∧ m ≠ str "POST") := by
    rcases hm with h | h <;> simp [h]
  refine ⟨?_, ?_, ?_⟩
  · unfold handler
    simp only [mkReq]
    rw [if_neg hguard]
    simp [mkRes]
  · intro rest
    unfold handler
    simp only [mkReq]
    rw [if_neg hguard, if_neg (echoRoot_ne rest), if_pos (startsWithChars_append _ _)]
    split <;> rfl
  · unfold handler
    simp only [mkReq]
    rw [if_neg hguard, if_neg (by decide : ¬ ((str "/user-agent" : Chars) = str "/")),
      if_neg (by decide : ¬ (startsWithChars (str "/echo/") (str "/user-agent") = true))]
    simp [mkRes]

/-- C5 (witness): the amended theorem at three concrete POST requests. -/
theorem c5_witness :
    (handler gZero fsEmpty (mkReq (str "POST") (str "/") [] [])).status = 200 ∧
    (handler gZero fsEmpty (mkReq (str "POST") (str "/echo/" ++ str "x") [] [])).status
      = 200 ∧
    (handler gZero fsEmpty (mkReq (str "POST") (str "/user-agent") [] [])).status = 200 :=
  ⟨(c5_theorem gZero fsEmpty [] [] (str "POST") (Or.inr rfl)).1,
   (c5_theorem gZero fsEmpty [] [] (str "POST") (Or.inr rfl)).2.1 (str "x"),
   (c5_theorem gZero fsEmpty [] [] (str "POST") (Or.inr rfl)).2.2⟩

/-- C6: on `GET /echo/<rest>`, if the request's `Accept-Encoding` value is
exactly `gzip` the handler answers 200 with header `Content-Encoding: gzip`
and body `gzipSync rest`; for any other value, or when the header is absent,
it answers 200 with body `rest` verbatim and no `Content-Encoding` header
(no headers at all). -/
theorem c6_theorem (g : Chars → List Nat) (fr : Chars → Option (List Nat))
    (hs : HeaderEntries) (b : List Nat) (rest : Chars) :
    (headersGet hs (str "Accept-Encoding") = some (str "gzip") →
      handler g fr (mkReq (str "GET") (str "/echo/" ++ rest) hs b)
        = mkRes 200 [(str "content-encoding", str "gzip")] (g rest)) ∧
    (headersGet hs (str "Accept-Encoding") ≠ some (str "gzip") →
      handler g fr (mkReq (str "GET") (str "/echo/" ++ rest) hs b)
        = mkRes 200 [] (bytesOf rest)) := by
  have hguard : ¬ ((str "GET" : Chars) ≠ str "GET" ∧ (str "GET" : Chars) ≠ str "POST") := by
    simp
  have hdrop : (str "/echo/" ++ rest).drop (str "/echo/").length = rest :=
    List.drop_left _ _
  constructor
  · intro hae
    unfold handler
    simp only [mkReq]
    rw [if_neg hguard, if_neg (echoRoot_ne rest), if_pos (startsWithChars_append _ _),
      if_pos hae, hdrop]
  · intro hae
    unfold handler
    simp only [mkReq]
    rw [if_neg hguard, if_neg (echoRoot_ne rest), if_pos (startsWithChars_append _ _),
      if_neg hae, hdrop]

/-- C6 (witness): the theorem at `/echo/foo` with and without the header. -/
theorem c6_witness :
    handler gZero fsEmpty (mkReq (str "GET") (str "/echo/" ++ str "foo") hdrsGzip [])
      = mkRes 200 [(str "content-encoding", str "gzip")] (gZero (str "foo")) ∧
    handler gZero fsEmpty (mkReq (str "GET") (str "/echo/" ++ str "foo") [] [])
      = mkRes 200 [] (bytesOf (str "foo")) :=
  ⟨(c6_theorem gZero fsEmpty hdrsGzip [] (str "foo")).1 (by decide),
   (c6_theorem gZero fsEmpty [] [] (str "foo")).2 (by decide)⟩

/-- C7 (counterexample): for the gzip echo response the serialized bytes
differ from the set-order rendering — the `Headers` iteration emits
`content-encoding`, `content-length`, `content-type` (sorted by name), while
the headers were set in the order `content-encoding`, `content-type`,
`content-length`. -/
theorem c7_counterexample :
    serializeWire (str "HTTP/1.1") resGzipEcho
      ≠ serializeWireSetOrder (str "HTTP/1.1") resGzipEcho := by
  decide

/-- C7 (amended): the wire output is the status line and CR LF, then one
`name: value` CR LF per header — exactly the defaulted headers, each once, but
in `Headers` iteration order, i.e. sorted lexicographically by (lower-case)
name rather than in the order they were set — then a blank line, then the raw
body bytes. -/
theorem c7_theorem (version : Chars) (res : Response) :
    serializeWire version res =
      bytesOf (version ++ str " " ++ natDecimal res.status ++ str " " ++ reasonOf res
        ++ crlfS ++ renderHeaders (sortedFinalHeaders res) ++ crlfS) ++ res.body ∧
    List.Sorted keyLe (sortedFinalHeaders res) ∧
    List.Perm (sortedFinalHeaders res) (finalHeaders res) :=
  ⟨rfl, List.sorted_insertionSort keyLe (finalHeaders res),
   List.perm_insertionSort keyLe (finalHeaders res)⟩

/-- C8: the serialized headers always contain a `content-type` and a
`content-length` entry; when the handler did not set them, the values are
`text/plain` and the decimal byte length of the body. -/
theorem c8_theorem (res : Response) :
    (∃ v, (str "content-type", v) ∈ sortedFinalHeaders res) ∧
    (∃ v, (str "content-length", v) ∈ sortedFinalHeaders res) ∧
    (headersHas res.headers (str "Content-Type") = false →
      (str "content-type", str "text/plain") ∈ sortedFinalHeaders res) ∧
    (headersHas res.headers (str "Content-Length") = false →
      (str "content-length", natDecimal res.body.length) ∈ sortedFinalHeaders res) := by
  obtain ⟨vct, hct, hctd⟩ := finalHeaders_ct res
  obtain ⟨vcl, hcl, hcld⟩ := finalHeaders_cl res
  have tct : (str "content-type", vct) ∈ sortedFinalHeaders res := by
    unfold sortedFinalHeaders
    rw [List.mem_insertionSort]
    exact hct
  have tcl : (str "content-length", vcl) ∈ sortedFinalHeaders res := by
    unfold sortedFinalHeaders
    rw [List.mem_insertionSort]
    exact hcl
  exact ⟨⟨vct, tct⟩, ⟨vcl, tcl⟩,
    fun hF => hctd hF ▸ tct, fun hF => hcld hF ▸ tcl⟩

/-- C8 (witness): the theorem at a response that set neither header. -/
theorem c8_witness :
    (str "content-type", str "text/plain") ∈ sortedFinalHeaders resEmpty ∧
    (str "content-length", natDecimal 0) ∈ sortedFinalHeaders resEmpty :=
  ⟨(c8_theorem resEmpty).2.2.1 (by decide),
   (c8_theorem resEmpty).2.2.2 (by decide)⟩

/-- C9: on `GET /files/<name>`: a name containing a forward or backward slash
is answered 404; a slash-free name absent from the configured directory is
answered 404 (so `..%2fsecret` gets 404 whatever else the directory holds);
a present file is answered 200 with the file bytes and
`Content-Type: application/octet-stream`. -/
theorem c9_theorem (g : Chars → List Nat) (fr : Chars → Option (List Nat))
    (hs : HeaderEntries) (b : List Nat) (name : Chars) :
    ((containsChar name '/' || containsChar name '\\') = true →
      handler g fr (mkReq (str "GET") (str "/files/" ++ name) hs b)
        = mkRes 404 [] []) ∧
    ((containsChar name '/' || containsChar name '\\') = false → fr name = none →
      handler g fr (mkReq (str "GET") (str "/files/" ++ name) hs b)
        = mkRes 404 [] []) ∧
    (∀ bs, (containsChar name '/' || containsChar name '\\') = false →
      fr name = some bs →
      handler g fr (mkReq (str "GET") (str "/files/" ++ name) hs b)
        = mkRes 200 [(str "content-type", str "application/octet-stream")] bs) := by
  have hguard : ¬ ((str "GET" : Chars) ≠ str "GET" ∧ (str "GET" : Chars) ≠ str "POST") := by
    simp
  have hpre : ¬ (startsWithChars (str "/echo/") (str "/files/" ++ name) = true) := by
    simp [echo_not_pre_files name]
  have hdrop : (str "/files/" ++ name).drop (str "/files/").length = name :=
    List.drop_left _ _
  refine ⟨?_, ?_, ?_⟩
  · intro hslash
    unfold handler
    simp only [mkReq]
    rw [if_neg hguard, if_neg (filesRoot_ne name), if_neg hpre,
      if_neg (filesUA_ne name), if_pos ⟨trivial, startsWithChars_append _ _⟩, hdrop,
      if_pos hslash]
  · intro hslash hfr
    unfold handler
    simp only [mkReq]
    rw [if_neg hguard, if_neg (filesRoot_ne name), if_neg hpre,
      if_neg (filesUA_ne name), if_pos ⟨trivial, startsWithChars_append _ _⟩, hdrop,
      if_neg (by simp [hslash]), hfr]
  · intro bs hslash hfr
    unfold handler
    simp only [mkReq]
    rw [if_neg hguard, if_neg (filesRoot_ne name), if_neg hpre,
      if_neg (filesUA_ne name), if_pos ⟨trivial, startsWithChars_append _ _⟩, hdrop,
      if_neg (by simp [hslash]), hfr]

/-- C9 (witness): the theorem on a directory holding only `secret`: a slashed
name and the literal name `..%2fsecret` get 404 — even though `secret`
exists — and `secret` itself is served. -/
theorem c9_witness :
    handler gZero fsSecret (mkReq (str "GET") (str "/files/" ++ str "a/b") [] [])
      = mkRes 404 [] [] ∧
    handler gZero fsSecret (mkReq (str "GET") (str "/files/" ++ str "..%2fsecret") [] [])
      = mkRes 404 [] [] ∧
    handler gZero fsSecret (mkReq (str "GET") (str "/files/" ++ str "secret") [] [])
      = mkRes 200 [(str "content-type", str "application/octet-stream")]
          (bytesOf (str "top")) :=
  ⟨(c9_theorem gZero fsSecret [] [] (str "a/b")).1 (by decide),
   (c9_theorem gZero fsSecret [] [] (str "..%2fsecret")).2.1 (by decide) (by decide),
   (c9_theorem gZero fsSecret [] [] (str "secret")).2.2 (bytesOf (str "top"))
     (by decide) (by decide)⟩

/-- C10: `POST /files/<name>` with a slash-free name is answered 201 with an
empty body whatever the state of the filesystem collaborator — the response
is computed without consulting it, so no write outcome can alter it. -/
theorem c10_theorem (g : Chars → List Nat) (fr : Chars → Option (List Nat))
    (hs : HeaderEntries) (b : List Nat) (name : Chars)
    (hslash : (containsChar name '/' || containsChar name '\\') = false) :
    handler g fr (mkReq (str "POST") (str "/files/" ++ name) hs b)
      = mkRes 201 [] [] := by
  have hguard : ¬ ((str "POST" : Chars) ≠ str "GET" ∧ (str "POST" : Chars) ≠ str "POST") := by
    simp
  have hpre : ¬ (startsWithChars (str "/echo/") (str "/files/" ++ name) = true) := by
    simp [echo_not_pre_files name]
  have hget : ¬ ((str "POST" : Chars) = str "GET" ∧
      startsWithChars (str "/files/") (str "/files/" ++ name) = true) := by
    rintro ⟨h1, _⟩
    exact absurd h1 (by decide)
  have hdrop : (str "/files/" ++ name).drop (str "/files/").length = name :=
    List.drop_left _ _
  unfold handler
  simp only [mkReq]
  rw [if_neg hguard, if_neg (filesRoot_ne name), if_neg hpre,
    if_neg (filesUA_ne name), if_neg hget,
    if_pos ⟨trivial, startsWithChars_append _ _⟩]
  simp [hdrop, hslash]

/-- C10 (witness): the theorem at the name `file_123`. -/
theorem c10_witness :
    handler gZero fsSecret (mkReq (str "POST") (str "/files/" ++ str "file_123") [] [])
      = mkRes 201 [] [] :=
  c10_theorem gZero fsSecret [] [] (str "file_123") (by decide)

end CCHttp

